import Mathlib

/-!
Verification of the pico-cs mqtt-gateway message-routing and device-ownership
core against its natural-language specification.

The development shallowly embeds the Go sources:
- speed-scale translation (`speed127`/`speed128` methods of
  `internal/devices/cs.go`),
- the topic codec (`gateway/topic.go`),
- the subscription registry, dispatcher and publisher
  (`internal/gateway/gateway.go`),
- the command-station worker and loco ownership
  (`internal/devices/cs.go`, loco file of package `devices`).

Machine integers: the Go code uses `uint`/`int`; all values handled here stay
far below 2^63, so speeds are `Nat` and deltas are `Int` with explicit
clamping exactly as in the source.
-/

namespace PicoCS

/-! ## Speed-scale translation (internal/devices/cs.go)

Go declares `type speed127 uint` (bus-facing external speed, 0..126) and
`type speed128 uint` (device raw speed, 0..127).  The four methods below are
transcribed one-to-one; the receiver value is modelled as `Nat`.
-/

/-- Go `func (s speed127) speed128() speed128`: external to device raw speed;
`0 ↦ 0`, otherwise `s+1` (skip emergency stop). -/
def speed127.speed128 (s : Nat) : Nat :=
  if s = 0 then 0 else s + 1

/-- Go `func (s speed128) speed127() speed128`: device raw to external speed;
`s ≤ 1 ↦ 0` (skip emergency stop), otherwise `s-1`. -/
def speed128.speed127 (s : Nat) : Nat :=
  if s ≤ 1 then 0 else s - 1

/-- Go `func (s speed127) add(delta int) speed127`: signed relative
adjustment with clamping into [0,126]; `delta == 0` returns the receiver
unchanged. -/
def speed127.add (s : Nat) (delta : Int) : Nat :=
  if delta = 0 then s
  else if (s : Int) + delta < 0 then 0
  else if (s : Int) + delta > 126 then 126
  else ((s : Int) + delta).toNat

/-- Go `func (s speed128) add(delta int) speed128`:
`s.speed127().add(delta).speed128()`. -/
def speed128.add (s : Nat) (delta : Int) : Nat :=
  speed127.speed128 (speed127.add (speed128.speed127 s) delta)

/-! ## Topic codec (gateway/topic.go) -/

/-- The topic level separator `/` of `gateway/topic.go`. -/
def topicSep : Char := '/'

/-- The single-level wildcard `+` of `gateway/topic.go`. -/
def singleLevel : Char := '+'

/-- The multi-level wildcard `#` of `gateway/topic.go`. -/
def multiLevel : Char := '#'

/-- Go `minNumPart = 1`. -/
def minNumPart : Nat := 1

/-- Go `maxNumPart = partCommand + 1 = 5`. -/
def maxNumPart : Nat := 5

/-- Go `strings.Split(topic, "/")` on a string viewed as its character list:
splits around every separator occurrence; n separators yield n+1 parts, the
empty string yields one empty part. -/
def splitTopic : List Char → List (List Char)
  | [] => [[]]
  | c :: cs =>
    match splitTopic cs with
    | [] => [[c]]
    | p :: ps => if c = topicSep then [] :: p :: ps else (c :: p) :: ps

/-- Errors of the topic codec: the level-name check errors of
`gateway/topic.go` (`errEmptyTopicLevelName`, `errInvalidTopicLevelName`) and
the level-count error of `parseTopic`. -/
inductive TopicError
  | emptyLevelName
  | invalidLevelName
  | invalidNumParts (got : Nat)
deriving DecidableEq, Repr

/-- Go `checkTopicLevelName`: errors when the name is empty or contains one
of the reserved characters `/`, `+`, `#` (`strings.ContainsAny`); `none`
means the name is valid. -/
def checkTopicLevelName (name : List Char) : Option TopicError :=
  if name = [] then some .emptyLevelName
  else if name.any (fun c => c = topicSep || c = singleLevel || c = multiLevel) then
    some .invalidLevelName
  else none

/-- Go `parseTopic`: splits on `/` and fails iff the part count is outside
`[minNumPart, maxNumPart]`; the parts themselves are not inspected. -/
def parseTopic (s : List Char) : Except TopicError (List (List Char)) :=
  let parts := splitTopic s
  let l := parts.length
  if l < minNumPart || l > maxNumPart then .error (.invalidNumParts l)
  else .ok parts

/-- Go `func (t topic) noCommand() string` of `gateway/topic.go`, on a full
topic given as its levels: the trailing command level is dropped only when
exactly `maxNumPart` (5) levels are present.  (The Go function returns the
`/`-joined string; levels produced by splitting contain no `/`, so joining
is injective and the level list carries the same information.) -/
def topic.noCommand (t : List String) : List String :=
  if t.length = maxNumPart then t.dropLast else t

/-! ## JSON payloads and the device collaborator

Inbound payloads are decoded by `json.Unmarshal` into a dynamic value; the
handlers type-assert `bool` or `float64`.  The embedding uses a tagged value
type; numbers are carried as `Int` (every number any claim touches is an
integer well inside `float64`'s exact range, and the Go `uint(f64)` / `int(f64)`
conversions are exact there).
-/

/-- A decoded JSON payload value (`any` in the Go sources). -/
inductive Json
  | bool (b : Bool)
  | num (n : Int)
  | str (s : String)
deriving DecidableEq, Repr

/-- The device contacted through the external `go-client` collaborator
(spec §6 "Device transport").  The client is not part of this repository;
it is modelled as a state machine whose primitives always succeed and echo
the value just written, and which records every raw-speed write in
`setSpeedCalls` so that theorems can speak about "the raw speed written to
the device". -/
structure Device where
  dirs : Nat → Bool
  speeds : Nat → Nat
  fcts : Nat → Nat → Bool
  mte : Bool
  temp : Int
  setSpeedCalls : List (Nat × Nat)

/-- Go `client.Temp`. -/
def Client.temp (d : Device) : Int × Device := (d.temp, d)

/-- Go `client.MTE`. -/
def Client.mte (d : Device) : Bool × Device := (d.mte, d)

/-- Go `client.SetMTE`. -/
def Client.setMTE (d : Device) (enabled : Bool) : Bool × Device :=
  (enabled, { d with mte := enabled })

/-- Go `client.LocoDir`. -/
def Client.locoDir (d : Device) (addr : Nat) : Bool × Device := (d.dirs addr, d)

/-- Go `client.SetLocoDir`. -/
def Client.setLocoDir (d : Device) (addr : Nat) (dir : Bool) : Bool × Device :=
  (dir, { d with dirs := fun a => if a = addr then dir else d.dirs a })

/-- Go `client.ToggleLocoDir`. -/
def Client.toggleLocoDir (d : Device) (addr : Nat) : Bool × Device :=
  (!d.dirs addr, { d with dirs := fun a => if a = addr then !d.dirs addr else d.dirs a })

/-- Go `client.LocoSpeed128`: read the current raw device speed. -/
def Client.locoSpeed128 (d : Device) (addr : Nat) : Nat × Device := (d.speeds addr, d)

/-- Go `client.SetLocoSpeed128`: write a raw device speed; the written value is
echoed back and the call is recorded. -/
def Client.setLocoSpeed128 (d : Device) (addr v : Nat) : Nat × Device :=
  (v, { d with
          speeds := fun a => if a = addr then v else d.speeds a,
          setSpeedCalls := d.setSpeedCalls ++ [(addr, v)] })

/-- Go `client.LocoFct`. -/
def Client.locoFct (d : Device) (addr no : Nat) : Bool × Device := (d.fcts addr no, d)

/-- Go `client.SetLocoFct`. -/
def Client.setLocoFct (d : Device) (addr no : Nat) (fct : Bool) : Bool × Device :=
  (fct, { d with fcts := fun a n => if a = addr ∧ n = no then fct else d.fcts a n })

/-- Go `client.ToggleLocoFct`. -/
def Client.toggleLocoFct (d : Device) (addr no : Nat) : Bool × Device :=
  (!d.fcts addr no,
   { d with fcts := fun a n => if a = addr ∧ n = no then !d.fcts a no else d.fcts a n })

/-! ## Handler functions (internal/devices/cs.go)

Go `gateway.HndFn = func(payload any) (any, error)`.  A handler result is
either an error or an optional value (`nil` results are legal and
significant).  Handlers close over the device client; the device state is
threaded explicitly.
-/

/-- Result of one handler invocation: Go's `(any, error)` pair with `nil`
values represented by `none`. -/
abbrev HndResult := Except String (Option Json)

/-- Go `gateway.HndFn`, with the device state made explicit. -/
def HndFn := Json → Device → HndResult × Device

/-- Go `cs.getTemp`. -/
def getTempFn : HndFn := fun _ d =>
  let (t, d') := Client.temp d
  (.ok (some (.num t)), d')

/-- Go `cs.getMTE`. -/
def getMTEFn : HndFn := fun _ d =>
  let (m, d') := Client.mte d
  (.ok (some (.bool m)), d')

/-- Go `cs.setMTE`: type-asserts a boolean payload. -/
def setMTEFn : HndFn := fun p d =>
  match p with
  | .bool enabled =>
    let (r, d') := Client.setMTE d enabled
    (.ok (some (.bool r)), d')
  | _ => (.error "setMTE: invalid enabled type", d)

/-- Go `cs.getLocoDir`. -/
def getLocoDirFn (addr : Nat) : HndFn := fun _ d =>
  let (r, d') := Client.locoDir d addr
  (.ok (some (.bool r)), d')

/-- Go `cs.setLocoDir`: with `publish = false` (listener form) a successful
call returns a `nil` value. -/
def setLocoDirFn (addr : Nat) (publish : Bool) : HndFn := fun p d =>
  match p with
  | .bool dir =>
    let (r, d') := Client.setLocoDir d addr dir
    if publish then (.ok (some (.bool r)), d') else (.ok none, d')
  | _ => (.error "setLocoDir: invalid dir type", d)

/-- Go `cs.toggleLocoDir`. -/
def toggleLocoDirFn (addr : Nat) : HndFn := fun _ d =>
  let (r, d') := Client.toggleLocoDir d addr
  (.ok (some (.bool r)), d')

/-- Go `cs.getLocoSpeed`: reads the raw speed and reports it on the external
scale. -/
def getLocoSpeedFn (addr : Nat) : HndFn := fun _ d =>
  let (speed, d') := Client.locoSpeed128 d addr
  (.ok (some (.num (speed128.speed127 speed))), d')

/-- Go `cs.setLocoSpeed`: type-asserts a number, converts it to the device
scale via `speed127.speed128`, writes it, and (in the `publish = true`
action form) reports the resulting speed on the external scale; the
listener form returns a `nil` value. -/
def setLocoSpeedFn (addr : Nat) (publish : Bool) : HndFn := fun p d =>
  match p with
  | .num f =>
    let (speed, d') := Client.setLocoSpeed128 d addr (speed127.speed128 f.toNat)
    if publish then (.ok (some (.num (speed128.speed127 speed))), d')
    else (.ok none, d')
  | _ => (.error "setLocoSpeed: invalid speed type", d)

/-- Go `cs.stopLoco`: always writes raw device speed 1 (emergency stop) and
reports the resulting speed on the external scale. -/
def stopLocoFn (addr : Nat) : HndFn := fun _ d =>
  let (speed, d') := Client.setLocoSpeed128 d addr 1
  (.ok (some (.num (speed128.speed127 speed))), d')

/-- Go `cs.addLocoSpeed`: reads the current raw speed, applies the signed
delta via `speed128.add`, writes the result back, and reports it on the
external scale. -/
def addLocoSpeedFn (addr : Nat) : HndFn := fun p d =>
  match p with
  | .num f =>
    let (speed, d') := Client.locoSpeed128 d addr
    let (speed2, d'') := Client.setLocoSpeed128 d' addr (speed128.add speed f)
    (.ok (some (.num (speed128.speed127 speed2))), d'')
  | _ => (.error "addLocoSpeed: invalid delta type", d)

/-- Go `cs.getLocoFct`. -/
def getLocoFctFn (addr no : Nat) : HndFn := fun _ d =>
  let (r, d') := Client.locoFct d addr no
  (.ok (some (.bool r)), d')

/-- Go `cs.setLocoFct`: listener form (`publish = false`) returns a `nil`
value on success. -/
def setLocoFctFn (addr no : Nat) (publish : Bool) : HndFn := fun p d =>
  match p with
  | .bool fct =>
    let (r, d') := Client.setLocoFct d addr no fct
    if publish then (.ok (some (.bool r)), d') else (.ok none, d')
  | _ => (.error "setLocoFct: invalid fct type", d)

/-- Go `cs.toggleLocoFct`. -/
def toggleLocoFctFn (addr no : Nat) : HndFn := fun _ d =>
  let (r, d') := Client.toggleLocoFct d addr no
  (.ok (some (.bool r)), d')

/-! ## Subscription registry and dispatcher (internal/gateway/gateway.go)

Go keys `gw.subscriptions` by the `/`-joined no-root topic string and keeps
an append-ordered slice per key.  Since topic levels obtained by splitting
never contain `/`, joining is injective, so the registry is modelled as a
flat append-only list of entries keyed by the level list; per-key order is
exactly the Go per-key slice order.
-/

/-- One entry of `gw.subscriptions`: the owning command station's name (the
Go `owner any` pointer, used only for targeted removal), the no-root topic
key, and the handler. -/
structure Subn where
  owner : String
  key : List String
  fn : HndFn

/-- The subscription registry. -/
abbrev SubReg := List Subn

/-- Go `gw.Subscribe`: appends an entry at the topic key. -/
def Gateway.Subscribe (reg : SubReg) (owner : String) (topicStrs : List String)
    (fn : HndFn) : SubReg :=
  reg ++ [⟨owner, topicStrs, fn⟩]

/-- Go `gw.subscriptions[topicNoRootStr]` lookup: the per-key slice in
append order. -/
def lookupSubs (reg : SubReg) (k : List String) : List Subn :=
  reg.filter (fun s => s.key = k)

/-- Go `gateway.HndMsg`: a command message placed on a command station's
channel; `topicStrs` is the full inbound topic without its root level. -/
structure HndMsg where
  topicStrs : List String
  fn : HndFn
  value : Json

/-- The two process-wide outbound queues `pubCh` and `errCh`.  A publish
entry is `(full topic levels, retain, value)` with `none` for a Go `nil`
value; an error entry is `(full topic levels, retain, error text)`. -/
structure GwQueues where
  pubQ : List (List String × Bool × Option Json)
  errQ : List (List String × Bool × String)
deriving Repr

/-- Go `gw.Publish`: prefixes the topic root and enqueues on `pubCh`. -/
def Gateway.Publish (root : String) (q : GwQueues) (topicStrs : List String)
    (retain : Bool) (value : Option Json) : GwQueues :=
  { q with pubQ := q.pubQ ++ [(root :: topicStrs, retain, value)] }

/-- Go `gw.PublishErr`: prefixes the topic root and enqueues on `errCh`. -/
def Gateway.PublishErr (root : String) (q : GwQueues) (topicStrs : List String)
    (retain : Bool) (e : String) : GwQueues :=
  { q with errQ := q.errQ ++ [(root :: topicStrs, retain, e)] }

/-- Go `gw.handler` (the dispatcher): given the split inbound topic and the
`json.Unmarshal` outcome (`none` = malformed payload), emits a decode error
and stops, or looks the no-root topic up in the registry and forwards one
command message per matching subscription (in per-key order) carrying the
no-root topic.  Returns the forwarded messages and the updated queues. -/
def Gateway.handler (reg : SubReg) (q : GwQueues) (topicStrs : List String)
    (decoded : Option Json) : List HndMsg × GwQueues :=
  match decoded with
  | none => ([], { q with errQ := q.errQ ++ [(topicStrs, false, "json unmarshal error")] })
  | some value =>
    let subs := lookupSubs reg (topicStrs.drop 1)
    (subs.map (fun s => ⟨topicStrs.drop 1, s.fn, value⟩), q)

/-! ## Command-station worker (internal/devices/cs.go `cmdHandler`) -/

/-- Go `cs.cmdHandler`: the per-command-station worker loop.  The channel is
modelled as the FIFO list of dequeued messages; for each message the handler
runs against the current device state, an error goes to the error queue
(`retain = false`, full no-root topic), a success enqueues the value —
possibly `nil` — retained on the topic with its last level dropped
(`msg.TopicStrs[:len(msg.TopicStrs)-1]`). -/
def CS.cmdHandler (root : String) : List HndMsg → Device → GwQueues → Device × GwQueues
  | [], d, q => (d, q)
  | msg :: rest, d, q =>
    match msg.fn msg.value d with
    | (.error e, d') =>
      CS.cmdHandler root rest d' (Gateway.PublishErr root q msg.topicStrs false e)
    | (.ok value, d') =>
      CS.cmdHandler root rest d' (Gateway.Publish root q msg.topicStrs.dropLast true value)

/-- Go `gw.publish` (the publisher's publish-queue drain): entries holding a
`nil` value are skipped without producing any outbound message; every other
entry is written to the bus with its retain flag.  The returned list is the
sequence of bus writes. -/
def Gateway.publishWorker (pubQ : List (List String × Bool × Option Json)) :
    List (List String × Bool × Json) :=
  pubQ.filterMap (fun e => e.2.2.map (fun j => (e.1, e.2.1, j)))

/-! ## Loco ownership and registration (package devices: Loco, CS.AddLoco) -/

/-- A loco (controlled entity): name, decoder address, named functions, and
the mutable ownership fields `primary` (command-station name, Go holds a
pointer) and `secondaries`. -/
structure Loco where
  name : String
  addr : Nat
  fcts : List (String × Nat)
  primary : Option String
  secondaries : List String

/-- Go `loco.setPrimary`: fails iff some primary is already set (the
ownership conflict), otherwise records the command station as primary. -/
def Loco.setPrimary (l : Loco) (csName : String) : Except String Loco :=
  if l.primary.isSome then
    .error ("loco " ++ l.name ++ " is already assigned to primary command station " ++ csName)
  else .ok { l with primary := some csName }

/-- Go `loco.addSecondary`: fails iff the command station is already a
secondary, otherwise adds it. -/
def Loco.addSecondary (l : Loco) (csName : String) : Except String Loco :=
  if l.secondaries.contains csName then
    .error ("loco " ++ l.name ++ " is already assigned to secondary command station " ++ csName)
  else .ok { l with secondaries := l.secondaries ++ [csName] }

/-- A command station (controller): name, the primary and secondary
include/exclude filters abstracted to their `filter.includes` decision, and
the set of loco names already added (`cs.locos`). -/
structure CS where
  name : String
  primary : String → Bool
  secondary : String → Bool
  locos : List String

/-- Go `cs.subscribeLocoActions`: the action-handler subscriptions a primary
command station makes for a loco — `dir` get/set/toggle, `speed`
get/set/stop/add, and get/set/toggle for every named function. -/
def CS.subscribeLocoActions (reg : SubReg) (csName name : String) (addr : Nat)
    (fcts : List (String × Nat)) : SubReg :=
  let reg := Gateway.Subscribe reg csName ["loco", name, "dir", "get"] (getLocoDirFn addr)
  let reg := Gateway.Subscribe reg csName ["loco", name, "dir", "set"] (setLocoDirFn addr true)
  let reg := Gateway.Subscribe reg csName ["loco", name, "dir", "toggle"] (toggleLocoDirFn addr)
  let reg := Gateway.Subscribe reg csName ["loco", name, "speed", "get"] (getLocoSpeedFn addr)
  let reg := Gateway.Subscribe reg csName ["loco", name, "speed", "set"] (setLocoSpeedFn addr true)
  let reg := Gateway.Subscribe reg csName ["loco", name, "speed", "stop"] (stopLocoFn addr)
  let reg := Gateway.Subscribe reg csName ["loco", name, "speed", "add"] (addLocoSpeedFn addr)
  fcts.foldl (fun r fct =>
    let r := Gateway.Subscribe r csName ["loco", name, fct.1, "get"] (getLocoFctFn addr fct.2)
    let r := Gateway.Subscribe r csName ["loco", name, fct.1, "set"] (setLocoFctFn addr fct.2 true)
    Gateway.Subscribe r csName ["loco", name, fct.1, "toggle"] (toggleLocoFctFn addr fct.2)) reg

/-- Go `cs.subscribeLocoEvents`: the listener-handler subscriptions a
secondary command station makes for a loco — the bare `dir`, `speed` and
function event topics, with `publish = false` handlers. -/
def CS.subscribeLocoEvents (reg : SubReg) (csName name : String) (addr : Nat)
    (fcts : List (String × Nat)) : SubReg :=
  let reg := Gateway.Subscribe reg csName ["loco", name, "dir"] (setLocoDirFn addr false)
  let reg := Gateway.Subscribe reg csName ["loco", name, "speed"] (setLocoSpeedFn addr false)
  fcts.foldl (fun r fct =>
    Gateway.Subscribe r csName ["loco", name, fct.1] (setLocoFctFn addr fct.2 false)) reg

/-- Go `cs.subscribe`: the command station's own `temp`/`mte` topics. -/
def CS.subscribeOwn (reg : SubReg) (csName : String) : SubReg :=
  let reg := Gateway.Subscribe reg csName ["cs", csName, "temp", "get"] getTempFn
  let reg := Gateway.Subscribe reg csName ["cs", csName, "mte", "get"] getMTEFn
  Gateway.Subscribe reg csName ["cs", csName, "mte", "set"] setMTEFn

/-- Go `cs.AddLoco`: registration of a loco with a command station.  Fails
if the loco is already assigned to this command station; otherwise, if the
primary filter includes the loco name, tries `setPrimary` — an existing
primary makes the whole call fail with no subscription and no state change —
and on success records the loco and subscribes the action handlers; else if
the secondary filter includes the name, ditto with `addSecondary` and the
listener handlers; else a no-op returning `false`.  The Go method mutates
`cs`, `loco` and the registry in place; here the post-call states are
returned alongside Go's `(bool, error)` result. -/
def CS.AddLoco (cs : CS) (loco : Loco) (reg : SubReg) :
    Except String Bool × CS × Loco × SubReg :=
  if cs.locos.contains loco.name then
    (.error ("loco " ++ loco.name ++ " already assigned to command station " ++ cs.name),
     cs, loco, reg)
  else if cs.primary loco.name then
    match loco.setPrimary cs.name with
    | .error e => (.error e, cs, loco, reg)
    | .ok loco' =>
      (.ok true, { cs with locos := cs.locos ++ [loco.name] }, loco',
       CS.subscribeLocoActions reg cs.name loco.name loco.addr loco.fcts)
  else if cs.secondary loco.name then
    match loco.addSecondary cs.name with
    | .error e => (.error e, cs, loco, reg)
    | .ok loco' =>
      (.ok true, { cs with locos := cs.locos ++ [loco.name] }, loco',
       CS.subscribeLocoEvents reg cs.name loco.name loco.addr loco.fcts)
  else (.ok false, cs, loco, reg)

/-! ## Helper lemmas -/

/-- The device-to-external conversion undoes the external-to-device
conversion (this in fact needs no upper bound on `s`). -/
theorem speed128_speed127_roundtrip (s : Nat) :
    speed128.speed127 (speed127.speed128 s) = s := by
  unfold speed127.speed128 speed128.speed127
  by_cases h0 : s = 0
  · simp [h0]
  · rw [if_neg h0, if_neg (by omega)]
    omega

/-- Lemma: `speed127.add` computes the clamp of the signed sum into `[0,126]`
whenever the current external speed is in range. -/
theorem speed127_add_clamp (s : Nat) (delta : Int) (h : s ≤ 126) :
    (speed127.add s delta : Int) = max 0 (min 126 ((s : Int) + delta)) := by
  unfold speed127.add
  split_ifs <;> omega

/-! ## Claims -/

/-- C2: for every external speed `s ∈ [0,126]`, converting to the device
scale and back is the identity, and both device values 0 and 1 convert to
external speed 0. -/
theorem speed_scale_roundtrip :
    (∀ s : Nat, s ≤ 126 → speed128.speed127 (speed127.speed128 s) = s)
    ∧ speed128.speed127 0 = 0 ∧ speed128.speed127 1 = 0 :=
  ⟨fun s _ => speed128_speed127_roundtrip s, rfl, rfl⟩

/-- Witness for C2 at `s = 80`. -/
theorem speed_scale_roundtrip_witness :
    speed128.speed127 (speed127.speed128 80) = 80 :=
  speed_scale_roundtrip.1 80 (by decide)

/-- C5: for every current external speed in `[0,126]` and every integer
delta, the relative adjustment stays in `[0,126]` and equals the sum
clamped to 0 from below and 126 from above. -/
theorem speed127_add_in_range (s : Nat) (h : s ≤ 126) (delta : Int) :
    0 ≤ speed127.add s delta ∧ speed127.add s delta ≤ 126
    ∧ (speed127.add s delta : Int) = max 0 (min 126 ((s : Int) + delta)) := by
  refine ⟨Nat.zero_le _, ?_, speed127_add_clamp s delta h⟩
  have hc := speed127_add_clamp s delta h
  omega

/-- Witness for C5 at `s = 100`, `delta = 999`. -/
theorem speed127_add_in_range_witness :
    0 ≤ speed127.add 100 999 ∧ speed127.add 100 999 ≤ 126
    ∧ (speed127.add 100 999 : Int) = max 0 (min 126 ((100 : Int) + 999)) :=
  speed127_add_in_range 100 (by decide) 999

/-- C10: the zero-delta relative adjustment is the identity on device
speed values 0 and 2..127, but maps device value 1 (emergency stop) to 0
(plain stop). -/
theorem speed128_add_zero :
    speed128.add 0 0 = 0
    ∧ (∀ d : Nat, 2 ≤ d → d ≤ 127 → speed128.add d 0 = d)
    ∧ speed128.add 1 0 = 0 := by
  refine ⟨rfl, ?_, rfl⟩
  intro d h2 _
  have e1 : speed128.speed127 d = d - 1 := by
    unfold speed128.speed127; rw [if_neg (by omega)]
  have e2 : speed127.add (d - 1) 0 = d - 1 := by
    unfold speed127.add; rw [if_pos rfl]
  have e3 : speed127.speed128 (d - 1) = d := by
    unfold speed127.speed128; rw [if_neg (by omega)]; omega
  unfold speed128.add
  rw [e1, e2, e3]

/-- Witness for C10 at `d = 5`. -/
theorem speed128_add_zero_witness : speed128.add 5 0 = 5 :=
  speed128_add_zero.2.1 5 (by decide) (by decide)

/-- C6 counterexample: the claim says `parse` also fails when a
user-defined level contains a reserved character, but on
`"pico-cs/loco/+/speed/set"` — whose entity level `+` is rejected by the
level-name check — `parseTopic` succeeds, returning the five levels. -/
theorem parseTopic_counterexample :
    parseTopic "pico-cs/loco/+/speed/set".toList
      = .ok ["pico-cs".toList, "loco".toList, "+".toList, "speed".toList, "set".toList]
    ∧ checkTopicLevelName "+".toList = some .invalidLevelName := by
  exact ⟨rfl, rfl⟩

/-- C6 amended: `parseTopic` splits on `/` and fails (with the level-count
error) iff the number of levels is outside `[1,5]`, returning the levels
otherwise; it does not inspect level contents.  Reserved-character and
emptiness checking of user-defined names is done separately by
`checkTopicLevelName`, which rejects exactly the empty name and names
containing `/`, `+` or `#`. -/
theorem parseTopic_spec :
    (∀ s : List Char,
      parseTopic s = .error (.invalidNumParts (splitTopic s).length)
      ∨ parseTopic s = .ok (splitTopic s))
    ∧ (∀ s : List Char,
      parseTopic s = .error (.invalidNumParts (splitTopic s).length)
        ↔ ((splitTopic s).length < minNumPart ∨ (splitTopic s).length > maxNumPart))
    ∧ (∀ name : List Char,
      checkTopicLevelName name = none
        ↔ (name ≠ [] ∧ ∀ c ∈ name, c ≠ topicSep ∧ c ≠ singleLevel ∧ c ≠ multiLevel)) := by
  refine ⟨?_, ?_, ?_⟩
  · intro s
    unfold parseTopic
    by_cases h : (splitTopic s).length < minNumPart || (splitTopic s).length > maxNumPart
    · left; simp only [h, if_true]
    · right; simp [h]
  · intro s
    unfold parseTopic
    by_cases h : (splitTopic s).length < minNumPart || (splitTopic s).length > maxNumPart
    · simp only [h, if_true]
      simp only [Bool.or_eq_true, decide_eq_true_eq] at h
      simpa using h
    · simp only [h, if_false]
      simp only [Bool.or_eq_true, decide_eq_true_eq, not_or] at h
      constructor
      · intro hc; cases hc
      · intro hc; omega
  · intro name
    unfold checkTopicLevelName
    by_cases he : name = []
    · simp [he]
    · rw [if_neg he]
      by_cases ha : name.any (fun c => c = topicSep || c = singleLevel || c = multiLevel)
      · rw [if_pos ha]
        simp only [List.any_eq_true, Bool.or_eq_true, decide_eq_true_eq] at ha
        obtain ⟨c, hc, hor⟩ := ha
        constructor
        · intro hcon; cases hcon
        · intro ⟨_, hall⟩
          exact absurd hor (by have := hall c hc; tauto)
      · rw [if_neg ha]
        simp only [List.any_eq_true, Bool.or_eq_true, decide_eq_true_eq] at ha
        push_neg at ha
        exact ⟨fun _ => ⟨he, fun c hc => by have := ha c hc; tauto⟩, fun _ => rfl⟩

/-- Witness for C6 (amended) on the valid name `br01` and the two-level
topic `a/b`. -/
theorem parseTopic_spec_witness :
    checkTopicLevelName "br01".toList = none
    ∧ parseTopic "a/b".toList = .ok (splitTopic "a/b".toList) := by
  constructor
  · exact (parseTopic_spec.2.2 "br01".toList).mpr (by decide)
  · have h := parseTopic_spec.1 "a/b".toList
    rcases h with h | h
    · rw [(parseTopic_spec.2.1 "a/b".toList)] at h
      exact absurd h (by decide)
    · exact h

/-- C1: registering a loco whose name the command station's primary filter
includes (and which was not already added to this command station): with no
existing primary, the command station becomes the primary, the loco is
recorded, and the action handlers are subscribed; with an existing primary
the call fails with the ownership-conflict error of `Loco.setPrimary`,
creates no subscription, and leaves the loco's ownership state — and
everything else — unchanged. -/
theorem AddLoco_ownership (cs : CS) (loco : Loco) (reg : SubReg)
    (hmatch : cs.primary loco.name = true)
    (hnew : cs.locos.contains loco.name = false) :
    (loco.primary = none →
      CS.AddLoco cs loco reg =
        (.ok true, { cs with locos := cs.locos ++ [loco.name] },
         { loco with primary := some cs.name },
         CS.subscribeLocoActions reg cs.name loco.name loco.addr loco.fcts))
    ∧ (∀ p, loco.primary = some p →
      CS.AddLoco cs loco reg =
        (.error ("loco " ++ loco.name ++ " is already assigned to primary command station "
           ++ cs.name), cs, loco, reg)) := by
  have hmem : loco.name ∉ cs.locos := by simpa using hnew
  constructor
  · intro hp
    unfold CS.AddLoco Loco.setPrimary
    simp [hnew, hmem, hmatch, hp]
  · intro p hp
    unfold CS.AddLoco Loco.setPrimary
    simp [hnew, hmem, hmatch, hp]

/-- Witness for C1: command station `cs01` with an all-inclusive primary
filter, loco `br01` — once with no primary, once with primary `other`. -/
theorem AddLoco_ownership_witness :
    CS.AddLoco ⟨"cs01", fun _ => true, fun _ => false, []⟩ ⟨"br01", 1, [], none, []⟩ []
      = (.ok true, ⟨"cs01", fun _ => true, fun _ => false, ["br01"]⟩,
         ⟨"br01", 1, [], some "cs01", []⟩,
         CS.subscribeLocoActions [] "cs01" "br01" 1 [])
    ∧ CS.AddLoco ⟨"cs01", fun _ => true, fun _ => false, []⟩
        ⟨"br01", 1, [], some "other", []⟩ []
      = (.error "loco br01 is already assigned to primary command station cs01",
         ⟨"cs01", fun _ => true, fun _ => false, []⟩, ⟨"br01", 1, [], some "other", []⟩, []) := by
  constructor
  · exact (AddLoco_ownership ⟨"cs01", fun _ => true, fun _ => false, []⟩
      ⟨"br01", 1, [], none, []⟩ [] rfl rfl).1 rfl
  · exact (AddLoco_ownership ⟨"cs01", fun _ => true, fun _ => false, []⟩
      ⟨"br01", 1, [], some "other", []⟩ [] rfl rfl).2 "other" rfl

/-- C3: a set-speed command with numeric payload `v ∈ [0,126]` on a loco's
`speed/set` topic, processed by the primary's action handler, writes raw
device speed 0 for `v = 0` and `v+1` for `v > 0`, and publishes exactly one
retained event carrying the external speed `v` on the topic without the
command suffix; no error is emitted. -/
theorem setLocoSpeed_pipeline (root e : String) (addr v : Nat) (hv : v ≤ 126)
    (d : Device) (q : GwQueues) :
    (CS.cmdHandler root
        [⟨["loco", e, "speed", "set"], setLocoSpeedFn addr true, .num (v : Int)⟩] d q).1.setSpeedCalls
      = d.setSpeedCalls ++ [(addr, if v = 0 then 0 else v + 1)]
    ∧ Gateway.publishWorker (CS.cmdHandler root
        [⟨["loco", e, "speed", "set"], setLocoSpeedFn addr true, .num (v : Int)⟩] d q).2.pubQ
      = Gateway.publishWorker q.pubQ ++ [([root, "loco", e, "speed"], true, Json.num (v : Int))]
    ∧ (CS.cmdHandler root
        [⟨["loco", e, "speed", "set"], setLocoSpeedFn addr true, .num (v : Int)⟩] d q).2.errQ
      = q.errQ := by
  have hraw : speed127.speed128 v = if v = 0 then 0 else v + 1 := by
    unfold speed127.speed128; rfl
  have hrt : speed128.speed127 (if v = 0 then 0 else v + 1) = v := by
    rw [← hraw]; exact speed128_speed127_roundtrip v
  refine ⟨?_, ?_, ?_⟩ <;>
    simp [CS.cmdHandler, setLocoSpeedFn, Client.setLocoSpeed128, Gateway.Publish,
      Gateway.publishWorker, List.filterMap_append, hraw, hrt]

/-- Witness for C3 at payload 80 on `br01`: raw device speed 81 is written
and retained payload 80 is published on `pico-cs/loco/br01/speed`. -/
theorem setLocoSpeed_pipeline_witness :
    (CS.cmdHandler "pico-cs"
        [⟨["loco", "br01", "speed", "set"], setLocoSpeedFn 1 true, .num (80 : Int)⟩]
        ⟨fun _ => false, fun _ => 0, fun _ _ => false, false, 0, []⟩ ⟨[], []⟩).1.setSpeedCalls
      = [(1, if (80 : Nat) = 0 then 0 else 80 + 1)]
    ∧ Gateway.publishWorker (CS.cmdHandler "pico-cs"
        [⟨["loco", "br01", "speed", "set"], setLocoSpeedFn 1 true, .num (80 : Int)⟩]
        ⟨fun _ => false, fun _ => 0, fun _ _ => false, false, 0, []⟩ ⟨[], []⟩).2.pubQ
      = Gateway.publishWorker ([] : List (List String × Bool × Option Json))
        ++ [(["pico-cs", "loco", "br01", "speed"], true, Json.num (80 : Int))]
    ∧ (CS.cmdHandler "pico-cs"
        [⟨["loco", "br01", "speed", "set"], setLocoSpeedFn 1 true, .num (80 : Int)⟩]
        ⟨fun _ => false, fun _ => 0, fun _ _ => false, false, 0, []⟩ ⟨[], []⟩).2.errQ = [] := by
  have h := setLocoSpeed_pipeline "pico-cs" "br01" 1 80 (by decide)
    ⟨fun _ => false, fun _ => 0, fun _ _ => false, false, 0, []⟩ ⟨[], []⟩
  exact h

/-- C4: an emergency-stop command always writes raw device speed 1,
whatever the current device speed, and the published retained event reports
external speed 0; no error is emitted. -/
theorem stopLoco_pipeline (root e : String) (addr : Nat) (p : Json)
    (d : Device) (q : GwQueues) :
    (CS.cmdHandler root
        [⟨["loco", e, "speed", "stop"], stopLocoFn addr, p⟩] d q).1.setSpeedCalls
      = d.setSpeedCalls ++ [(addr, 1)]
    ∧ Gateway.publishWorker (CS.cmdHandler root
        [⟨["loco", e, "speed", "stop"], stopLocoFn addr, p⟩] d q).2.pubQ
      = Gateway.publishWorker q.pubQ ++ [([root, "loco", e, "speed"], true, Json.num 0)]
    ∧ (CS.cmdHandler root
        [⟨["loco", e, "speed", "stop"], stopLocoFn addr, p⟩] d q).2.errQ = q.errQ := by
  refine ⟨?_, ?_, ?_⟩ <;>
    simp [CS.cmdHandler, stopLocoFn, Client.setLocoSpeed128, Gateway.Publish,
      Gateway.publishWorker, List.filterMap_append, speed128.speed127]

/-- C8: an inbound message whose decoded topic has no matching entry in the
subscription registry (keyed by the topic without its root level) is
dropped silently by the dispatcher: no command message is forwarded to any
command-station channel, and neither the publish queue nor the error queue
changes. -/
theorem handler_no_subscription (reg : SubReg) (q : GwQueues)
    (topicStrs : List String) (value : Json)
    (h : lookupSubs reg (topicStrs.drop 1) = []) :
    Gateway.handler reg q topicStrs (some value) = ([], q) := by
  unfold Gateway.handler
  rw [List.drop_one] at h
  simp [h]

/-- Witness for C8: `pico-cs/loco/unknown/speed/set` against an empty
registry. -/
theorem handler_no_subscription_witness :
    Gateway.handler [] ⟨[], []⟩ ["pico-cs", "loco", "unknown", "speed", "set"]
      (some (.num 80)) = ([], ⟨[], []⟩) :=
  handler_no_subscription [] ⟨[], []⟩ ["pico-cs", "loco", "unknown", "speed", "set"]
    (.num 80) rfl

/-- C9: two commands dequeued in the order `m1`, `m2` from the same
command-station channel are processed sequentially in that order (`m2` runs
against the device state `m1` left behind) and their resulting events are
appended to the publish queue in the order `m1`-result then `m2`-result. -/
theorem cmdHandler_fifo (root : String) (m1 m2 : HndMsg) (d d1 d2 : Device)
    (q : GwQueues) (v1 v2 : Option Json)
    (h1 : m1.fn m1.value d = (.ok v1, d1))
    (h2 : m2.fn m2.value d1 = (.ok v2, d2)) :
    CS.cmdHandler root [m1, m2] d q =
      (d2, { q with pubQ := q.pubQ
        ++ [(root :: m1.topicStrs.dropLast, true, v1),
            (root :: m2.topicStrs.dropLast, true, v2)] }) := by
  unfold CS.cmdHandler
  rw [h1]
  unfold CS.cmdHandler
  rw [h2]
  unfold CS.cmdHandler
  simp [Gateway.Publish]

/-- Witness for C9: a stop command followed by a set-speed command on the
same loco. -/
theorem cmdHandler_fifo_witness :
    CS.cmdHandler "pico-cs"
        [⟨["loco", "br01", "speed", "stop"], stopLocoFn 1, .num 0⟩,
         ⟨["loco", "br01", "speed", "set"], setLocoSpeedFn 1 true, .num 80⟩]
        ⟨fun _ => false, fun _ => 0, fun _ _ => false, false, 0, []⟩ ⟨[], []⟩
      = (((⟨["loco", "br01", "speed", "set"], setLocoSpeedFn 1 true, .num 80⟩ : HndMsg).fn
            (.num 80)
            ((⟨["loco", "br01", "speed", "stop"], stopLocoFn 1, .num 0⟩ : HndMsg).fn (.num 0)
              ⟨fun _ => false, fun _ => 0, fun _ _ => false, false, 0, []⟩).2).2,
         { pubQ := [(["pico-cs", "loco", "br01", "speed"], true, some (Json.num 0)),
                    (["pico-cs", "loco", "br01", "speed"], true, some (Json.num 80))],
           errQ := [] }) := by
  exact cmdHandler_fifo "pico-cs" _ _ _ _ _ ⟨[], []⟩ (some (Json.num 0))
    (some (Json.num 80)) rfl rfl

/-! ## Helpers for the event-publication claim -/

/-- Every subscription package devices ever creates for one command station
and one loco: the station's own topics, the action handlers (primary case)
and the listener handlers (secondary case). -/
def deviceSubs (csName locoName : String) (addr : Nat) (fcts : List (String × Nat)) : SubReg :=
  CS.subscribeLocoEvents
    (CS.subscribeLocoActions (CS.subscribeOwn [] csName) csName locoName addr fcts)
    csName locoName addr fcts

/-- A handler that never yields a non-`nil` value: every invocation either
succeeds with a `nil` result or errors (the `publish = false` listener
handlers). -/
def listenerFn (f : HndFn) : Prop :=
  ∀ p d, (f p d).1 = .ok none ∨ ∃ e, (f p d).1 = .error e

/-- A subscription is well-formed for event publication when its key holds
a command level (4 levels without the root) or its handler is a listener. -/
def subOK (s : Subn) : Prop := s.key.length = 4 ∨ listenerFn s.fn

theorem listenerFn_setLocoDirFn (addr : Nat) : listenerFn (setLocoDirFn addr false) := by
  intro p d
  cases p <;> simp [setLocoDirFn, Client.setLocoDir]

theorem listenerFn_setLocoSpeedFn (addr : Nat) : listenerFn (setLocoSpeedFn addr false) := by
  intro p d
  cases p <;> simp [setLocoSpeedFn, Client.setLocoSpeed128]

theorem listenerFn_setLocoFctFn (addr no : Nat) : listenerFn (setLocoFctFn addr no false) := by
  intro p d
  cases p <;> simp [setLocoFctFn, Client.setLocoFct]

theorem forall_mem_subscribe {P : Subn → Prop} (reg : SubReg) (o : String)
    (k : List String) (f : HndFn) (hreg : ∀ s ∈ reg, P s) (hnew : P ⟨o, k, f⟩) :
    ∀ s ∈ Gateway.Subscribe reg o k f, P s := by
  intro s hs
  rcases List.mem_append.mp hs with h | h
  · exact hreg s h
  · rw [List.mem_singleton.mp h]; exact hnew

theorem forall_mem_foldl {α : Type} {P : Subn → Prop} (g : SubReg → α → SubReg)
    (hg : ∀ r a, (∀ s ∈ r, P s) → ∀ s ∈ g r a, P s) :
    ∀ (l : List α) (r : SubReg), (∀ s ∈ r, P s) → ∀ s ∈ l.foldl g r, P s := by
  intro l
  induction l with
  | nil => intro r hr; simpa using hr
  | cons a l ih => intro r hr; exact ih (g r a) (hg r a hr)

theorem subOK_subscribeOwn (reg : SubReg) (csName : String)
    (hreg : ∀ s ∈ reg, subOK s) : ∀ s ∈ CS.subscribeOwn reg csName, subOK s := by
  unfold CS.subscribeOwn
  refine forall_mem_subscribe _ _ _ _ ?_ (Or.inl rfl)
  refine forall_mem_subscribe _ _ _ _ ?_ (Or.inl rfl)
  exact forall_mem_subscribe _ _ _ _ hreg (Or.inl rfl)

theorem subOK_subscribeLocoActions (reg : SubReg) (csName name : String) (addr : Nat)
    (fcts : List (String × Nat)) (hreg : ∀ s ∈ reg, subOK s) :
    ∀ s ∈ CS.subscribeLocoActions reg csName name addr fcts, subOK s := by
  unfold CS.subscribeLocoActions
  refine forall_mem_foldl _ ?_ fcts _ ?_
  · intro r a hr
    refine forall_mem_subscribe _ _ _ _ ?_ (Or.inl rfl)
    refine forall_mem_subscribe _ _ _ _ ?_ (Or.inl rfl)
    exact forall_mem_subscribe _ _ _ _ hr (Or.inl rfl)
  · refine forall_mem_subscribe _ _ _ _ ?_ (Or.inl rfl)
    refine forall_mem_subscribe _ _ _ _ ?_ (Or.inl rfl)
    refine forall_mem_subscribe _ _ _ _ ?_ (Or.inl rfl)
    refine forall_mem_subscribe _ _ _ _ ?_ (Or.inl rfl)
    refine forall_mem_subscribe _ _ _ _ ?_ (Or.inl rfl)
    refine forall_mem_subscribe _ _ _ _ ?_ (Or.inl rfl)
    exact forall_mem_subscribe _ _ _ _ hreg (Or.inl rfl)

theorem subOK_subscribeLocoEvents (reg : SubReg) (csName name : String) (addr : Nat)
    (fcts : List (String × Nat)) (hreg : ∀ s ∈ reg, subOK s) :
    ∀ s ∈ CS.subscribeLocoEvents reg csName name addr fcts, subOK s := by
  unfold CS.subscribeLocoEvents
  refine forall_mem_foldl _ ?_ fcts _ ?_
  · intro r a hr
    exact forall_mem_subscribe _ _ _ _ hr (Or.inr (listenerFn_setLocoFctFn addr a.2))
  · refine forall_mem_subscribe _ _ _ _ ?_ (Or.inr (listenerFn_setLocoSpeedFn addr))
    exact forall_mem_subscribe _ _ _ _ hreg (Or.inr (listenerFn_setLocoDirFn addr))

theorem subOK_deviceSubs (csName locoName : String) (addr : Nat)
    (fcts : List (String × Nat)) : ∀ s ∈ deviceSubs csName locoName addr fcts, subOK s := by
  unfold deviceSubs
  refine subOK_subscribeLocoEvents _ _ _ _ _ ?_
  refine subOK_subscribeLocoActions _ _ _ _ _ ?_
  exact subOK_subscribeOwn _ _ (by intro s hs; cases hs)

/-- C7: for a dequeued command message, a handler success with a non-null
result enqueues exactly one retained event on the command topic with its
trailing level removed — which coincides with `topic.noCommand` (removal
only at 5 full levels) whenever a command level is present — and the
publisher emits exactly that one event; a null result leads to no outbound
message at all (the enqueued entry is skipped by the publisher); and every
subscription the devices package creates either carries a command level
(4 non-root levels) or its handler never returns a non-null result, so
non-null results only ever arise where the command level is present. -/
theorem cmdHandler_publish_semantics :
    (∀ (root : String) (msg : HndMsg) (d : Device) (q : GwQueues) (v : Json) (d' : Device),
      msg.fn msg.value d = (.ok (some v), d') →
      (CS.cmdHandler root [msg] d q).2.pubQ
          = q.pubQ ++ [(root :: msg.topicStrs.dropLast, true, some v)]
      ∧ Gateway.publishWorker (CS.cmdHandler root [msg] d q).2.pubQ
          = Gateway.publishWorker q.pubQ ++ [(root :: msg.topicStrs.dropLast, true, v)]
      ∧ (CS.cmdHandler root [msg] d q).2.errQ = q.errQ
      ∧ (msg.topicStrs.length = 4 →
          root :: msg.topicStrs.dropLast = topic.noCommand (root :: msg.topicStrs)))
    ∧ (∀ (root : String) (msg : HndMsg) (d : Device) (q : GwQueues) (d' : Device),
      msg.fn msg.value d = (.ok none, d') →
      Gateway.publishWorker (CS.cmdHandler root [msg] d q).2.pubQ = Gateway.publishWorker q.pubQ
      ∧ (CS.cmdHandler root [msg] d q).2.errQ = q.errQ)
    ∧ (∀ (csName locoName : String) (addr : Nat) (fcts : List (String × Nat)),
      ∀ s ∈ deviceSubs csName locoName addr fcts,
      ∀ (p : Json) (d : Device) (v : Json) (d' : Device),
        s.fn p d = (.ok (some v), d') → s.key.length = 4) := by
  refine ⟨?_, ?_, ?_⟩
  · intro root msg d q v d' h
    refine ⟨?_, ?_, ?_, ?_⟩
    · unfold CS.cmdHandler
      rw [h]
      unfold CS.cmdHandler
      simp [Gateway.Publish]
    · unfold CS.cmdHandler
      rw [h]
      unfold CS.cmdHandler
      simp [Gateway.Publish, Gateway.publishWorker, List.filterMap_append]
    · unfold CS.cmdHandler
      rw [h]
      unfold CS.cmdHandler
      simp [Gateway.Publish]
    · intro hlen
      unfold topic.noCommand
      rw [if_pos (by simp [hlen, maxNumPart])]
      cases hts : msg.topicStrs with
      | nil => rw [hts] at hlen; cases hlen
      | cons a t =>
        cases t with
        | nil => rw [hts] at hlen; cases hlen
        | cons b t' => simp
  · intro root msg d q d' h
    constructor
    · unfold CS.cmdHandler
      rw [h]
      unfold CS.cmdHandler
      simp [Gateway.Publish, Gateway.publishWorker, List.filterMap_append]
    · unfold CS.cmdHandler
      rw [h]
      unfold CS.cmdHandler
      simp [Gateway.Publish]
  · intro csName locoName addr fcts s hs p d v d' h
    rcases subOK_deviceSubs csName locoName addr fcts s hs with hk | hl
    · exact hk
    · rcases hl p d with hnone | ⟨e, he⟩
      · rw [h] at hnone; cases hnone
      · rw [h] at he; cases he

/-- Witness for C7: the single stop command of the C4 scenario, with the
`subOK` membership part exercised on the `speed/set` action subscription. -/
theorem cmdHandler_publish_semantics_witness :
    (CS.cmdHandler "pico-cs"
        [⟨["loco", "br01", "speed", "stop"], stopLocoFn 1, .num 0⟩]
        ⟨fun _ => false, fun _ => 0, fun _ _ => false, false, 0, []⟩ ⟨[], []⟩).2.pubQ
      = [(["pico-cs", "loco", "br01", "speed"], true, some (Json.num 0))] := by
  have h := (cmdHandler_publish_semantics.1 "pico-cs"
    ⟨["loco", "br01", "speed", "stop"], stopLocoFn 1, .num 0⟩
    ⟨fun _ => false, fun _ => 0, fun _ _ => false, false, 0, []⟩ ⟨[], []⟩
    (Json.num 0) _ rfl).1
  simpa using h

end PicoCS
